import Mathlib

/-!
Verification of the bidirectional file-synchronization engine of wpsite-cli
(`src/commands/dev.js`), shallowly embedded in Lean 4.

Modelling conventions:
* File paths are plain strings, assumed already in resolved absolute form
  (`path.resolve` is idempotent on such paths, so re-normalisation inside the
  engine is the identity and is not repeated in the embedding).
* The filesystem visible to one read is a function `FS` from paths to a read
  outcome (absent / I/O error / content); distinct snapshots model the tree
  changing over time between the engine's reads.
* The MD5 digest is an abstract function `md5 : String → String` passed
  explicitly; only equality of digests matters to the engine.
* JS `Map` and `Set` become association lists / duplicate-free lists with
  JS insertion semantics (`mapSet` replaces in place, `setAdd` appends when
  absent).  JS timers (`setTimeout`) become entries of an explicit `timers`
  store carrying an id, a kind and an absolute fire time; `clearTimeout`
  removes by id.  Values stored in `fileHashes` keep the JS type of the
  `hash` variable (`string | null`), i.e. `Option String`.
-/

/-- A file path (already resolved and absolute). -/
abbrev FsPath := String

/-- Outcome of one attempt to read a file's bytes. -/
inductive FsRead where
  | absent
  | ioErr
  | ok (content : String)
deriving DecidableEq

/-- One snapshot of the filesystem, as seen by a single read. -/
abbrev FS := FsPath → FsRead

/-- JS truthiness of a `string | null` value (`null` and `""` are falsy). -/
def jsTruthy : Option String → Bool
  | none => false
  | some s => !(s == "")

/-- JS `Map.prototype.get`: first (unique) binding of the key, if any. -/
def mapGet [DecidableEq α] : List (α × β) → α → Option β
  | [], _ => none
  | (k', v) :: rest, k => if k' = k then some v else mapGet rest k

/-- JS `Map.prototype.set`: replace the binding in place, else append. -/
def mapSet [DecidableEq α] : List (α × β) → α → β → List (α × β)
  | [], k, v => [(k, v)]
  | (k', v') :: rest, k, v =>
      if k' = k then (k, v) :: rest else (k', v') :: mapSet rest k v

/-- JS `Map.prototype.delete`. -/
def mapDelete [DecidableEq α] (m : List (α × β)) (k : α) : List (α × β) :=
  m.filter (fun kv => !(kv.1 = k))

/-- JS `Set.prototype.add`. -/
def setAdd [DecidableEq α] (s : List α) (a : α) : List α :=
  if a ∈ s then s else s ++ [a]

/-- JS `Set.prototype.delete`. -/
def setDelete [DecidableEq α] (s : List α) (a : α) : List α :=
  s.filter (fun x => !(x = a))

/-- Sync direction, from `handleFileChange`'s classification. -/
inductive Dir where
  | sourceToTarget
  | targetToSource
deriving DecidableEq

/-- The string form used in the debounce key (`${filePath}-${direction}`). -/
def dirText : Dir → String
  | .sourceToTarget => "source-to-target"
  | .targetToSource => "target-to-source"

/-- Debounce key of `scheduleSync`. -/
def syncKey (p : FsPath) (d : Dir) : String := p ++ "-" ++ dirText d

/-- Debounce delay of `scheduleSync`: 4000ms from the container, 2000ms to it. -/
def syncDelay : Dir → Nat
  | .targetToSource => 4000
  | .sourceToTarget => 2000

/-- What an outstanding `setTimeout` will do when it fires. -/
inductive TimerKind where
  /-- debounce timer of `scheduleSync` (runs `performSync`, then deletes the key) -/
  | debounce (key : String) (p : FsPath) (d : Dir)
  /-- the 10s safety auto-unlock scheduled by `lockFile` -/
  | autoUnlock (p : FsPath)
  /-- the 5s recently-synced removal scheduled by `unlockFile` -/
  | recentRemoval (p : FsPath)
  /-- the 1s deferred `unlockFile` scheduled in `performSync`'s finally block -/
  | pendingUnlock (p : FsPath)
deriving DecidableEq

/-- An outstanding timer: its handle, callback kind and absolute fire time. -/
structure Timer where
  id : Nat
  kind : TimerKind
  fireAt : Nat
deriving DecidableEq

/-- State of the `SyncManager` class, plus the engine-created timers. -/
structure SyncManager where
  sourcePath : String
  targetPath : String
  /-- `fileHashes : Map` — stored values keep the JS type `string | null`. -/
  fileHashes : List (FsPath × Option String)
  /-- `syncingFiles : Set` -/
  syncingFiles : List FsPath
  /-- `pendingOperations : Map` — debounce key to timer handle. -/
  pendingOperations : List (String × Nat)
  /-- `lastSyncTime : Map` — path to timestamp. -/
  lastSyncTime : List (FsPath × Nat)
  /-- `recentlySynced : Set` -/
  recentlySynced : List FsPath
  /-- all outstanding `setTimeout` timers created by the engine. -/
  timers : List Timer
  /-- next fresh timer handle. -/
  nextTimerId : Nat
deriving DecidableEq

/-- The `SyncManager` constructor: empty maps and sets. -/
def initSyncManager (src tgt : String) : SyncManager :=
  { sourcePath := src, targetPath := tgt, fileHashes := [], syncingFiles := [],
    pendingOperations := [], lastSyncTime := [], recentlySynced := [],
    timers := [], nextTimerId := 0 }

/-- `setTimeout`: allocate a fresh timer with the given callback and delay. -/
def allocTimer (st : SyncManager) (k : TimerKind) (fireAt : Nat) : SyncManager :=
  { st with timers := st.timers ++ [⟨st.nextTimerId, k, fireAt⟩],
            nextTimerId := st.nextTimerId + 1 }

/-- `clearTimeout`: drop the timer with the given handle. -/
def clearTimeoutId (st : SyncManager) (tid : Nat) : SyncManager :=
  { st with timers := st.timers.filter (fun tm => !(tm.id = tid)) }

/-- `getFileHash`: MD5 of the file's bytes; `null` when the file is missing
or any read error occurs (the body is wrapped in try/catch). -/
def getFileHash (md5 : String → String) (fs : FS) (p : FsPath) : Option String :=
  match fs p with
  | .absent => none
  | .ioErr => none
  | .ok c => some (md5 c)

/-- `hasFileChanged`: `currentHash !== storedHash && currentHash !== null`.
The stored slot is `undefined` (no entry) or the stored JS value. -/
def hasFileChanged (md5 : String → String) (fs : FS) (st : SyncManager)
    (p : FsPath) : Bool :=
  let currentHash := getFileHash md5 fs p
  let storedHash := mapGet st.fileHashes p
  decide (storedHash ≠ some currentHash) && currentHash.isSome

/-- `lockFile`: mark syncing + recently synced, schedule the 10s auto-unlock. -/
def lockFile (st : SyncManager) (p : FsPath) (now : Nat) : SyncManager :=
  allocTimer
    { st with syncingFiles := setAdd st.syncingFiles p,
              recentlySynced := setAdd st.recentlySynced p }
    (.autoUnlock p) (now + 10000)

/-- `unlockFile`: clear the syncing flag, schedule the 5s recently-synced
removal. -/
def unlockFile (st : SyncManager) (p : FsPath) (now : Nat) : SyncManager :=
  allocTimer { st with syncingFiles := setDelete st.syncingFiles p }
    (.recentRemoval p) (now + 5000)

/-- `isFileLocked`: actively syncing or recently synced. -/
def isFileLocked (st : SyncManager) (p : FsPath) : Bool :=
  decide (p ∈ st.syncingFiles) || decide (p ∈ st.recentlySynced)

/-- `updateFileHash`: commit hash and timestamp only when the recomputed
hash is truthy. -/
def updateFileHash (md5 : String → String) (fs : FS) (st : SyncManager)
    (p : FsPath) (now : Nat) : SyncManager :=
  let hash := getFileHash md5 fs p
  if jsTruthy hash then
    { st with fileHashes := mapSet st.fileHashes p hash,
              lastSyncTime := mapSet st.lastSyncTime p now }
  else st

/-- `updateRelatedHashes`: recompute both hashes, commit both entries and
both timestamps only when both are truthy and equal. -/
def updateRelatedHashes (md5 : String → String) (fs : FS) (st : SyncManager)
    (a b : FsPath) (now : Nat) : SyncManager :=
  let sourceHash := getFileHash md5 fs a
  let targetHash := getFileHash md5 fs b
  if jsTruthy sourceHash && jsTruthy targetHash
      && decide (sourceHash = targetHash) then
    { st with
        fileHashes := mapSet (mapSet st.fileHashes a sourceHash) b targetHash,
        lastSyncTime := mapSet (mapSet st.lastSyncTime a now) b now }
  else st

/-- `wasRecentlyModified`: `lastSync && (now - lastSync < thresholdMs)`
(a 0 timestamp is falsy in JS). -/
def wasRecentlyModified (st : SyncManager) (p : FsPath) (thresholdMs : Nat)
    (now : Nat) : Bool :=
  match mapGet st.lastSyncTime p with
  | none => false
  | some t => decide (t ≠ 0) && decide (now - t < thresholdMs)

/-- `cleanup`: clear the timers held in `pendingOperations`, then empty the
pending map, the syncing set and the recently-synced set.  Timers created by
`lockFile` / `unlockFile` / `performSync` are not tracked by any map and are
left untouched. -/
def cleanup (st : SyncManager) : SyncManager :=
  { st with
      timers := st.timers.filter
        (fun tm => !(st.pendingOperations.any (fun kv => kv.2 = tm.id))),
      pendingOperations := [], syncingFiles := [], recentlySynced := [] }

/-- Result of one probe syscall in `isFileStable`: the file's state at that
instant.  `existsSync` sees `false` unless the observation is a `file`;
`statSync` throws unless the observation is a `file`. -/
inductive Obs where
  | missing
  | statErr
  | file (size : Nat) (mtimeMs : Nat)
deriving DecidableEq

/-- A time-indexed oracle of probe observations; each syscall made by
`isFileStable` consumes one tick. -/
abbrev ProbeOracle := Nat → Obs

/-- The `for` loop of `isFileStable`, with `rem` attempts remaining and the
probe clock at `t`.  Faithful points: a zero-size first stat does
`continue`, which (being a `for` loop) still advances the attempt counter;
a missing file at either `existsSync` returns `false` immediately; a
throwing `statSync` is caught and falls through to the next attempt. -/
def isFileStableLoop (pr : ProbeOracle) : Nat → Nat → Bool
  | 0, _ => false
  | rem + 1, t =>
    match pr t with
    | .file _ _ =>
      match pr (t + 1) with
      | .file size1 mtime1 =>
        if size1 = 0 then
          isFileStableLoop pr rem (t + 2)
        else
          match pr (t + 2) with
          | .file _ _ =>
            match pr (t + 3) with
            | .file size2 mtime2 =>
              if size1 = size2 ∧ mtime1 = mtime2 then true
              else isFileStableLoop pr rem (t + 4)
            | _ => isFileStableLoop pr rem (t + 4)
          | _ => false
      | _ => isFileStableLoop pr rem (t + 2)
    | _ => false

/-- `isFileStable(filePath, maxAttempts = 3)`, started at probe clock 0. -/
def isFileStable (pr : ProbeOracle) (maxAttempts : Nat) : Bool :=
  isFileStableLoop pr maxAttempts 0

/-- Node's `path.relative(root, p)` for a path `p` lying under `root`
(the only shape the engine feeds it), computed on the character list. -/
def pathRelative (root p : String) : String :=
  ⟨p.data.drop (root.length + 1)⟩

/-- JS `String.prototype.startsWith`, computed on the character list. -/
def strStartsWith (s pre : String) : Bool :=
  pre.data.isPrefixOf s.data

/-- Node's `path.resolve(root, rel)` for a plain relative path `rel`. -/
def pathJoin (root rel : String) : String := root ++ "/" ++ rel

/-- Node's `path.dirname`. -/
def dirname (p : String) : String :=
  String.intercalate "/" ((p.splitOn "/").dropLast)

/-- `getSyncPaths`: resolve the read and write paths from the event path and
the direction. -/
def getSyncPaths (p : FsPath) (d : Dir) (st : SyncManager) : FsPath × FsPath :=
  match d with
  | .sourceToTarget => (p, pathJoin st.targetPath (pathRelative st.sourcePath p))
  | .targetToSource => (p, pathJoin st.sourcePath (pathRelative st.targetPath p))

/-- `scheduleSync`: cancel any pending debounce timer for the same
`(path, direction)` key and set a fresh one with the direction's delay. -/
def scheduleSync (st : SyncManager) (p : FsPath) (d : Dir) (now : Nat) :
    SyncManager :=
  let key := syncKey p d
  let st1 := match mapGet st.pendingOperations key with
    | some tid => clearTimeoutId st tid
    | none => st
  let tid := st1.nextTimerId
  let st2 := allocTimer st1 (.debounce key p d) (now + syncDelay d)
  { st2 with pendingOperations := mapSet st2.pendingOperations key tid }

/-- `handleFileChange`: the three event gates (lock set, 3000ms
recent-modification window, fingerprint change check), then direction
classification by path prefix and `scheduleSync`. -/
def handleFileChange (md5 : String → String) (fs : FS) (st : SyncManager)
    (p : FsPath) (now : Nat) : SyncManager :=
  if isFileLocked st p then st
  else if wasRecentlyModified st p 3000 now then st
  else if !hasFileChanged md5 fs st p then st
  else
    let d := if strStartsWith p st.sourcePath then Dir.sourceToTarget
             else Dir.targetToSource
    scheduleSync st p d now

/-- The environment one `performSync` call runs against: the filesystem
snapshot read by the change re-check, the stability-probe oracle, whether the
destination directory already exists, the outcomes of `mkdirSync` and
`copyFileSync` (which may throw), and the filesystem snapshot read by the
post-copy `updateRelatedHashes` re-check. -/
structure SyncEnv where
  fs : FS
  probe : ProbeOracle
  dirExists : Bool
  mkdirRes : Except String Unit
  copyRes : Except String Unit
  fsAfter : FS

/-- Observable side effects of one `performSync` call. -/
inductive Eff where
  | mkdirDir (dir : String)
  | copyFile (src tgt : String)
  | logSync (d : Dir) (p : FsPath)
  | logError (msg : String)
deriving DecidableEq

/-- The `try` block of `performSync`: returns the state reached, the effects
emitted so far, and `some e` when a step threw `e` (the throw aborts the
rest of the block; the caller's catch handles it). -/
def performSyncTry (md5 : String → String) (env : SyncEnv) (st : SyncManager)
    (p : FsPath) (d : Dir) (now : Nat) :
    SyncManager × List Eff × Option String :=
  if isFileLocked st p then (st, [], none)
  else
    let st1 := lockFile st p now
    let paths := getSyncPaths p d st1
    let readFrom := paths.1
    let writeTo := paths.2
    if !isFileStable env.probe 3 then (st1, [], none)
    else if !hasFileChanged md5 env.fs st1 readFrom then (st1, [], none)
    else
      match (if env.dirExists then Except.ok () else env.mkdirRes) with
      | .error e => (st1, [], some e)
      | .ok _ =>
        let effs1 : List Eff :=
          if env.dirExists then [] else [.mkdirDir (dirname writeTo)]
        match env.copyRes with
        | .error e => (st1, effs1, some e)
        | .ok _ =>
          let st2 := updateRelatedHashes md5 env.fsAfter st1 readFrom writeTo now
          (st2, effs1 ++ [.copyFile readFrom writeTo, .logSync d readFrom], none)

/-- `performSync` as run to completion: the catch clause turns a thrown error
into a logged message, and the finally clause schedules the deferred
`unlockFile` (1000ms) unconditionally. -/
def performSyncRun (md5 : String → String) (env : SyncEnv) (st : SyncManager)
    (p : FsPath) (d : Dir) (now : Nat) : SyncManager × List Eff :=
  match performSyncTry md5 env st p d now with
  | (st1, effs, some e) =>
      (allocTimer st1 (.pendingUnlock p) (now + 1000), effs ++ [.logError e])
  | (st1, effs, none) =>
      (allocTimer st1 (.pendingUnlock p) (now + 1000), effs)

/-- `performSync` as seen by its caller: an async function whose settled
outcome is `Except.ok` on normal completion and `Except.error` on an
uncaught throw.  The try/catch/finally structure of the source is the
`performSyncTry` split above. -/
def performSyncJs (md5 : String → String) (env : SyncEnv) (st : SyncManager)
    (p : FsPath) (d : Dir) (now : Nat) :
    Except String (SyncManager × List Eff) :=
  match performSyncTry md5 env st p d now with
  | (st1, effs, some e) =>
      Except.ok (allocTimer st1 (.pendingUnlock p) (now + 1000),
                 effs ++ [.logError e])
  | (st1, effs, none) =>
      Except.ok (allocTimer st1 (.pendingUnlock p) (now + 1000), effs)

/-- A handoff of a debounced sync to the executor: the path, direction and
the instant the debounce timer fired. -/
abbrev Handoff := FsPath × Dir × Nat

/-- Earliest-due timer at instant `now` (earliest fire time, creation order
breaking ties), as Node's timer queue would pick it. -/
def pickDue (now : Nat) : List Timer → Option Timer
  | [] => none
  | tm :: rest =>
    if tm.fireAt ≤ now then
      match pickDue now rest with
      | some tm2 => if tm2.fireAt < tm.fireAt then some tm2 else some tm
      | none => some tm
    else pickDue now rest

/-- Fire one timer: remove it, then run its callback.  A debounce timer's
callback invokes `performSync` — recorded here as a `Handoff` to the
executor — and deletes its key from `pendingOperations`; the lock timers run
`unlockFile` or the recently-synced removal. -/
def fireTimer (st : SyncManager) (log : List Handoff) (tm : Timer) :
    SyncManager × List Handoff :=
  let st1 := clearTimeoutId st tm.id
  match tm.kind with
  | .debounce key p d =>
      ({ st1 with pendingOperations := mapDelete st1.pendingOperations key },
       log ++ [(p, d, tm.fireAt)])
  | .autoUnlock p => (unlockFile st1 p tm.fireAt, log)
  | .recentRemoval p =>
      ({ st1 with recentlySynced := setDelete st1.recentlySynced p }, log)
  | .pendingUnlock p => (unlockFile st1 p tm.fireAt, log)

/-- Fire every timer due at or before `now`, in due order (fuel-bounded). -/
def runTimersLoop (pr : Nat) (now : Nat) (st : SyncManager)
    (log : List Handoff) : SyncManager × List Handoff :=
  match pr with
  | 0 => (st, log)
  | fuel + 1 =>
    match pickDue now st.timers with
    | none => (st, log)
    | some tm =>
        let r := fireTimer st log tm
        runTimersLoop fuel now r.1 r.2

/-- Deliver a time-stamped sequence of `scheduleSync` calls: before each
call, any timer already due fires. -/
def runEvents : SyncManager → List Handoff → List (Nat × FsPath × Dir) →
    SyncManager × List Handoff
  | st, log, [] => (st, log)
  | st, log, (t, p, d) :: rest =>
      let r := runTimersLoop (st.timers.length + 1) t st log
      runEvents (scheduleSync r.1 p d t) r.2 rest

/-- Run a burst of `scheduleSync` events and then let time advance to `T`,
firing whatever remains due. -/
def runBurst (st : SyncManager) (events : List (Nat × FsPath × Dir))
    (T : Nat) : SyncManager × List Handoff :=
  let r := runEvents st [] events
  runTimersLoop (r.1.timers.length + 1) T r.1 r.2

/-- Event times of a burst are ordered and each arrives within the debounce
delay of its predecessor (before that event's timer can fire). -/
def gapsOk (d : Dir) : Nat → List Nat → Bool
  | _, [] => true
  | prev, t :: ts =>
      decide (prev ≤ t) && decide (t < prev + syncDelay d) && gapsOk d t ts

/-- The time of the last event of a burst. -/
def lastT (t0 : Nat) (ts : List Nat) : Nat := ts.foldl (fun _ t => t) t0

theorem mapGet_mapSet [DecidableEq α] (m : List (α × β)) (k q : α) (v : β) :
    mapGet (mapSet m k v) q = if q = k then some v else mapGet m q := by
  induction m with
  | nil =>
    by_cases h : q = k
    · subst h; simp [mapSet, mapGet]
    · have h' : ¬ k = q := fun hk => h hk.symm
      simp [mapSet, mapGet, h, h']
  | cons kv rest ih =>
    obtain ⟨k0, v0⟩ := kv
    by_cases h0 : k0 = k
    · subst h0
      by_cases h1 : q = k0
      · subst h1; simp [mapSet, mapGet]
      · have h1' : ¬ k0 = q := fun hk => h1 hk.symm
        simp [mapSet, mapGet, h1, h1']
    · by_cases h1 : q = k0
      · subst h1
        simp [mapSet, h0, mapGet]
      · have h1' : ¬ k0 = q := fun hk => h1 hk.symm
        simp [mapSet, h0, mapGet, h1, h1', ih]

theorem jsTruthy_iff (v : Option String) :
    jsTruthy v = true ↔ ∃ s, v = some s ∧ s ≠ "" := by
  cases v <;> simp [jsTruthy]

theorem getFileHash_ne_empty (md5 : String → String) (fs : FS) (p : FsPath)
    (h : String) (hmd5 : ∀ c, md5 c ≠ "")
    (hh : getFileHash md5 fs p = some h) : h ≠ "" := by
  unfold getFileHash at hh
  cases hfs : fs p <;> rw [hfs] at hh <;> simp at hh
  exact hh ▸ hmd5 _

/-- Claim C7: `hasFileChanged` is true iff the recomputed hash is non-absent
and differs from the stored slot; in particular an absent recomputed hash is
never reported as a change. -/
theorem hasFileChanged_iff_present_and_differs (md5 : String → String)
    (fs : FS) (st : SyncManager) (p : FsPath) :
    (hasFileChanged md5 fs st p = true ↔
      (∃ h, getFileHash md5 fs p = some h
          ∧ mapGet st.fileHashes p ≠ some (some h)))
    ∧ (getFileHash md5 fs p = none → hasFileChanged md5 fs st p = false) := by
  constructor
  · cases hcur : getFileHash md5 fs p with
    | none => simp [hasFileChanged, hcur]
    | some h => simp [hasFileChanged, hcur]
  · intro hnone
    simp [hasFileChanged, hnone]

/-- Claim C7 witness: concrete evaluation of the iff. -/
theorem hasFileChanged_iff_present_and_differs_witness :
    hasFileChanged (fun s => s) (fun _ => FsRead.ok "A")
        (initSyncManager "/s" "/t") "/s/a" = true ↔
      (∃ h, getFileHash (fun s => s) (fun _ => FsRead.ok "A") "/s/a" = some h
          ∧ mapGet (initSyncManager "/s" "/t").fileHashes "/s/a"
              ≠ some (some h)) :=
  (hasFileChanged_iff_present_and_differs (fun s => s)
    (fun _ => FsRead.ok "A") (initSyncManager "/s" "/t") "/s/a").1

/-- Claim C10: a path with no fingerprint entry whose content is currently
readable is reported as changed, so files created after startup pass the
change gate on their first event. -/
theorem hasFileChanged_true_for_unknown_readable (md5 : String → String)
    (fs : FS) (st : SyncManager) (p : FsPath)
    (hstore : mapGet st.fileHashes p = none)
    (hread : (getFileHash md5 fs p).isSome = true) :
    hasFileChanged md5 fs st p = true := by
  simp [hasFileChanged, hstore, hread]

/-- Claim C10 witness. -/
theorem hasFileChanged_true_for_unknown_readable_witness :
    mapGet (initSyncManager "/s" "/t").fileHashes "/s/a" = none
    ∧ (getFileHash (fun s => s) (fun _ => FsRead.ok "A") "/s/a").isSome = true
    ∧ hasFileChanged (fun s => s) (fun _ => FsRead.ok "A")
        (initSyncManager "/s" "/t") "/s/a" = true :=
  ⟨rfl, rfl,
    hasFileChanged_true_for_unknown_readable _ _ _ _ rfl rfl⟩

/-- Claim C3: `updateRelatedHashes` commits both fingerprint entries and both
timestamps exactly when the two recomputed hashes are present and equal;
on any failure (either hash absent, or the two differ) the whole manager
state is unchanged.  The digest function is assumed to produce nonempty
digests, as MD5 hex digests are. -/
theorem updateRelatedHashes_commits_iff_hashes_equal (md5 : String → String)
    (fs : FS) (st : SyncManager) (a b : FsPath) (now : Nat)
    (hmd5 : ∀ c, md5 c ≠ "") :
    (∀ h, getFileHash md5 fs a = some h → getFileHash md5 fs b = some h →
        (updateRelatedHashes md5 fs st a b now).fileHashes
            = mapSet (mapSet st.fileHashes a (some h)) b (some h)
          ∧ (updateRelatedHashes md5 fs st a b now).lastSyncTime
            = mapSet (mapSet st.lastSyncTime a now) b now)
    ∧ ((getFileHash md5 fs a = none ∨ getFileHash md5 fs b = none
          ∨ getFileHash md5 fs a ≠ getFileHash md5 fs b) →
        updateRelatedHashes md5 fs st a b now = st) := by
  constructor
  · intro h ha hb
    have hne : h ≠ "" := getFileHash_ne_empty md5 fs a h hmd5 ha
    simp [updateRelatedHashes, ha, hb, jsTruthy, hne]
  · intro hbad
    rcases hbad with hnone | hnone | hne
    · simp [updateRelatedHashes, hnone, jsTruthy]
    · cases hjs : jsTruthy (getFileHash md5 fs a) <;>
        simp [updateRelatedHashes, hnone, hjs, jsTruthy]
    · cases hjs : jsTruthy (getFileHash md5 fs a) <;>
        cases hjs2 : jsTruthy (getFileHash md5 fs b) <;>
          simp [updateRelatedHashes, hjs, hjs2, hne]

/-- Claim C3 witness: a concrete commit case. -/
theorem updateRelatedHashes_commits_iff_hashes_equal_witness :
    (∀ c : String, (fun _ : String => "d") c ≠ "")
    ∧ ((updateRelatedHashes (fun _ => "d") (fun _ => FsRead.ok "A")
          (initSyncManager "/s" "/t") "/s/a" "/t/a" 9).fileHashes
        = mapSet (mapSet (initSyncManager "/s" "/t").fileHashes "/s/a"
            (some "d")) "/t/a" (some "d")) :=
  ⟨fun _ => show "d" ≠ "" by decide,
    ((updateRelatedHashes_commits_iff_hashes_equal (fun _ => "d")
        (fun _ => FsRead.ok "A") (initSyncManager "/s" "/t") "/s/a" "/t/a" 9
        (fun _ => show "d" ≠ "" by decide)).1 "d" rfl rfl).1⟩

/-- One externally invokable, state-mutating operation of the engine. -/
inductive SMOp where
  | lock (p : FsPath) (now : Nat)
  | unlock (p : FsPath) (now : Nat)
  | updateHash (fs : FS) (p : FsPath) (now : Nat)
  | updateRelated (fs : FS) (a b : FsPath) (now : Nat)
  | doCleanup
  | schedule (p : FsPath) (d : Dir) (now : Nat)
  | handleChange (fs : FS) (p : FsPath) (now : Nat)
  | performOp (env : SyncEnv) (p : FsPath) (d : Dir) (now : Nat)

/-- Apply one operation to the manager state. -/
def applyOp (md5 : String → String) (st : SyncManager) : SMOp → SyncManager
  | .lock p now => lockFile st p now
  | .unlock p now => unlockFile st p now
  | .updateHash fs p now => updateFileHash md5 fs st p now
  | .updateRelated fs a b now => updateRelatedHashes md5 fs st a b now
  | .doCleanup => cleanup st
  | .schedule p d now => scheduleSync st p d now
  | .handleChange fs p now => handleFileChange md5 fs st p now
  | .performOp env p d now => (performSyncRun md5 env st p d now).1

/-- Apply a sequence of operations, oldest first. -/
def applyOps (md5 : String → String) (st : SyncManager)
    (ops : List SMOp) : SyncManager :=
  ops.foldl (applyOp md5) st

/-- The fingerprint-store invariant: every stored slot holds a real
(non-null, nonempty) digest. -/
def goodStore (st : SyncManager) : Prop :=
  ∀ p v, mapGet st.fileHashes p = some v → ∃ s, v = some s ∧ s ≠ ""

theorem goodStore_of_fileHashes_eq {st st' : SyncManager}
    (heq : st'.fileHashes = st.fileHashes) (h : goodStore st) :
    goodStore st' := by
  intro p v hget
  exact h p v (heq ▸ hget)

theorem fileHashes_allocTimer (st : SyncManager) (k : TimerKind) (t : Nat) :
    (allocTimer st k t).fileHashes = st.fileHashes := rfl

theorem fileHashes_lockFile (st : SyncManager) (p : FsPath) (t : Nat) :
    (lockFile st p t).fileHashes = st.fileHashes := rfl

theorem fileHashes_unlockFile (st : SyncManager) (p : FsPath) (t : Nat) :
    (unlockFile st p t).fileHashes = st.fileHashes := rfl

theorem fileHashes_cleanup (st : SyncManager) :
    (cleanup st).fileHashes = st.fileHashes := rfl

theorem fileHashes_scheduleSync (st : SyncManager) (p : FsPath) (d : Dir)
    (t : Nat) : (scheduleSync st p d t).fileHashes = st.fileHashes := by
  cases hm : mapGet st.pendingOperations (syncKey p d) <;>
    simp [scheduleSync, hm, allocTimer, clearTimeoutId]

theorem goodStore_updateFileHash (md5 : String → String) (fs : FS)
    (st : SyncManager) (p : FsPath) (now : Nat) (h : goodStore st) :
    goodStore (updateFileHash md5 fs st p now) := by
  unfold updateFileHash
  cases hjs : jsTruthy (getFileHash md5 fs p) with
  | false => simpa [hjs] using h
  | true =>
    simp only [hjs, if_true]
    intro q v hget
    rw [mapGet_mapSet] at hget
    by_cases hq : q = p
    · rw [if_pos hq] at hget
      obtain ⟨s, hs, hse⟩ := (jsTruthy_iff _).mp hjs
      exact ⟨s, by injection hget with hv; rw [← hv, hs], hse⟩
    · rw [if_neg hq] at hget
      exact h q v hget

theorem goodStore_updateRelatedHashes (md5 : String → String) (fs : FS)
    (st : SyncManager) (a b : FsPath) (now : Nat) (h : goodStore st) :
    goodStore (updateRelatedHashes md5 fs st a b now) := by
  unfold updateRelatedHashes
  cases hc : (jsTruthy (getFileHash md5 fs a) && jsTruthy (getFileHash md5 fs b)
      && decide (getFileHash md5 fs a = getFileHash md5 fs b)) with
  | false => simpa [hc] using h
  | true =>
    simp only [hc, if_true]
    have hta : jsTruthy (getFileHash md5 fs a) = true := by
      simp only [Bool.and_eq_true] at hc; exact hc.1.1
    have htb : jsTruthy (getFileHash md5 fs b) = true := by
      simp only [Bool.and_eq_true] at hc; exact hc.1.2
    intro q v hget
    rw [mapGet_mapSet] at hget
    by_cases hqb : q = b
    · rw [if_pos hqb] at hget
      obtain ⟨s, hs, hse⟩ := (jsTruthy_iff _).mp htb
      exact ⟨s, by injection hget with hv; rw [← hv, hs], hse⟩
    · rw [if_neg hqb, mapGet_mapSet] at hget
      by_cases hqa : q = a
      · rw [if_pos hqa] at hget
        obtain ⟨s, hs, hse⟩ := (jsTruthy_iff _).mp hta
        exact ⟨s, by injection hget with hv; rw [← hv, hs], hse⟩
      · rw [if_neg hqa] at hget
        exact h q v hget

theorem goodStore_handleFileChange (md5 : String → String) (fs : FS)
    (st : SyncManager) (p : FsPath) (now : Nat) (h : goodStore st) :
    goodStore (handleFileChange md5 fs st p now) := by
  unfold handleFileChange
  split
  · exact h
  · split
    · exact h
    · split
      · exact h
      · exact goodStore_of_fileHashes_eq (fileHashes_scheduleSync _ _ _ _) h

theorem goodStore_performSyncTry (md5 : String → String) (env : SyncEnv)
    (st : SyncManager) (p : FsPath) (d : Dir) (now : Nat) (h : goodStore st) :
    goodStore (performSyncTry md5 env st p d now).1 := by
  have hlock : goodStore (lockFile st p now) :=
    goodStore_of_fileHashes_eq (fileHashes_lockFile _ _ _) h
  unfold performSyncTry
  repeat' split
  all_goals dsimp only
  all_goals
    first
      | exact h
      | exact hlock
      | exact goodStore_updateRelatedHashes md5 env.fsAfter _ _ _ now hlock
      | (split
          <;> first
            | exact hlock
            | exact goodStore_updateRelatedHashes md5 env.fsAfter _ _ _ now
                hlock)

theorem goodStore_performSyncRun (md5 : String → String) (env : SyncEnv)
    (st : SyncManager) (p : FsPath) (d : Dir) (now : Nat) (h : goodStore st) :
    goodStore (performSyncRun md5 env st p d now).1 := by
  have htry := goodStore_performSyncTry md5 env st p d now h
  rcases hres : performSyncTry md5 env st p d now with ⟨st1, effs, err⟩
  rw [hres] at htry
  have h1 : goodStore st1 := htry
  unfold performSyncRun
  rw [hres]
  cases err with
  | none => exact goodStore_of_fileHashes_eq (fileHashes_allocTimer _ _ _) h1
  | some e => exact goodStore_of_fileHashes_eq (fileHashes_allocTimer _ _ _) h1

theorem goodStore_applyOp (md5 : String → String) (st : SyncManager)
    (op : SMOp) (h : goodStore st) : goodStore (applyOp md5 st op) := by
  cases op with
  | lock p now => exact goodStore_of_fileHashes_eq (fileHashes_lockFile _ _ _) h
  | unlock p now =>
      exact goodStore_of_fileHashes_eq (fileHashes_unlockFile _ _ _) h
  | updateHash fs p now => exact goodStore_updateFileHash md5 fs st p now h
  | updateRelated fs a b now =>
      exact goodStore_updateRelatedHashes md5 fs st a b now h
  | doCleanup => exact goodStore_of_fileHashes_eq (fileHashes_cleanup _) h
  | schedule p d now =>
      exact goodStore_of_fileHashes_eq (fileHashes_scheduleSync _ _ _ _) h
  | handleChange fs p now => exact goodStore_handleFileChange md5 fs st p now h
  | performOp env p d now => exact goodStore_performSyncRun md5 env st p d now h

theorem goodStore_applyOps (md5 : String → String) (st : SyncManager)
    (ops : List SMOp) (h : goodStore st) :
    goodStore (applyOps md5 st ops) := by
  induction ops generalizing st with
  | nil => exact h
  | cons op rest ih => exact ih (applyOp md5 st op) (goodStore_applyOp md5 st op h)

/-- Claim C9: after any sequence of engine operations starting from the
constructor's empty store, every binding of `fileHashes` holds a real
digest — never the JS `null` that `getFileHash` returns on failure (and
never the falsy empty string), because `updateFileHash` and
`updateRelatedHashes` commit only truthy recomputed hashes. -/
theorem fileHashes_never_absent_invariant (md5 : String → String)
    (src tgt : String) (ops : List SMOp) (p : FsPath) (v : Option String)
    (hget : mapGet (applyOps md5 (initSyncManager src tgt) ops).fileHashes p
      = some v) :
    ∃ s, v = some s ∧ s ≠ "" := by
  have hinit : goodStore (initSyncManager src tgt) := by
    intro q w hq
    simp [initSyncManager, mapGet] at hq
  exact goodStore_applyOps md5 (initSyncManager src tgt) ops hinit p v hget

/-- Claim C9 witness: a concrete operation sequence placing one entry. -/
theorem fileHashes_never_absent_invariant_witness :
    mapGet (applyOps (fun _ => "d") (initSyncManager "/s" "/t")
        [SMOp.updateHash (fun _ => FsRead.ok "A") "/s/a" 5]).fileHashes "/s/a"
      = some (some "d")
    ∧ ∃ s, (some "d" : Option String) = some s ∧ s ≠ "" :=
  ⟨rfl, fileHashes_never_absent_invariant (fun _ => "d") "/s" "/t"
    [SMOp.updateHash (fun _ => FsRead.ok "A") "/s/a" 5] "/s/a" (some "d") rfl⟩

theorem getSyncPaths_fst (p : FsPath) (d : Dir) (st : SyncManager) :
    (getSyncPaths p d st).1 = p := by
  cases d <;> rfl

theorem hasFileChanged_lockFile (md5 : String → String) (fs : FS)
    (st : SyncManager) (q p : FsPath) (t : Nat) :
    hasFileChanged md5 fs (lockFile st q t) p = hasFileChanged md5 fs st p :=
  rfl

theorem performSyncTry_frame (md5 : String → String) (env : SyncEnv)
    (st : SyncManager) (p : FsPath) (d : Dir) (now : Nat)
    (hnc : hasFileChanged md5 env.fs st p = false) :
    performSyncTry md5 env st p d now = (st, [], none)
    ∨ performSyncTry md5 env st p d now = (lockFile st p now, [], none) := by
  unfold performSyncTry
  cases hl : isFileLocked st p with
  | true => left; simp [hl]
  | false =>
    right
    cases hs : isFileStable env.probe 3 with
    | false => simp [hl, hs]
    | true =>
      simp [hl, hs, getSyncPaths_fst, hasFileChanged_lockFile, hnc]

/-- Claim C4: when the change re-check reports no change, `performSync`
performs no copy, no directory creation and no logging, and leaves both the
fingerprint map and the last-synced map exactly as they were. -/
theorem performSync_unchanged_when_not_changed (md5 : String → String)
    (env : SyncEnv) (st : SyncManager) (p : FsPath) (d : Dir) (now : Nat)
    (hnc : hasFileChanged md5 env.fs st p = false) :
    (performSyncRun md5 env st p d now).1.fileHashes = st.fileHashes
    ∧ (performSyncRun md5 env st p d now).1.lastSyncTime = st.lastSyncTime
    ∧ (performSyncRun md5 env st p d now).2 = [] := by
  rcases performSyncTry_frame md5 env st p d now hnc with hcase | hcase <;>
    simp [performSyncRun, hcase, allocTimer, lockFile, setAdd]

/-- Claim C4 witness: an absent file is never "changed", and the run is a
no-op on the fingerprint state. -/
theorem performSync_unchanged_when_not_changed_witness :
    hasFileChanged (fun s => s) (fun _ => FsRead.absent)
        (initSyncManager "/s" "/t") "/s/a" = false
    ∧ (performSyncRun (fun s => s)
        ⟨fun _ => FsRead.absent, fun _ => Obs.file 1 1, true,
          Except.ok (), Except.ok (), fun _ => FsRead.absent⟩
        (initSyncManager "/s" "/t") "/s/a" Dir.sourceToTarget 50).1.fileHashes
      = (initSyncManager "/s" "/t").fileHashes :=
  ⟨rfl,
    (performSync_unchanged_when_not_changed (fun s => s)
      ⟨fun _ => FsRead.absent, fun _ => Obs.file 1 1, true,
        Except.ok (), Except.ok (), fun _ => FsRead.absent⟩
      (initSyncManager "/s" "/t") "/s/a" Dir.sourceToTarget 50 rfl).1⟩

/-- Claim C2: `performSync` settles normally for every environment,
including ones where directory creation or the copy throws: the settled
outcome is always `Except.ok` of the completed run, and an error thrown
inside the try block surfaces only as a logged message among the effects. -/
theorem performSync_swallows_errors (md5 : String → String) (env : SyncEnv)
    (st : SyncManager) (p : FsPath) (d : Dir) (now : Nat) :
    performSyncJs md5 env st p d now
      = Except.ok (performSyncRun md5 env st p d now)
    ∧ ∀ e ∈ (performSyncTry md5 env st p d now).2.2,
        Eff.logError e ∈ (performSyncRun md5 env st p d now).2 := by
  rcases hres : performSyncTry md5 env st p d now with ⟨st1, effs, err⟩
  constructor
  · cases err <;> simp [performSyncJs, performSyncRun, hres]
  · intro e he
    simp only [Option.mem_def] at he
    simp [performSyncRun, hres, he]

/-- Claim C2 witness: a concrete run whose copy throws; the error is logged
and the call still settles normally. -/
theorem performSync_swallows_errors_witness :
    performSyncJs (fun s => s)
        ⟨fun _ => FsRead.ok "B", fun _ => Obs.file 1 1, true,
          Except.ok (), Except.error "boom", fun _ => FsRead.ok "B"⟩
        (initSyncManager "/s" "/t") "/s/a" Dir.sourceToTarget 50
      = Except.ok (performSyncRun (fun s => s)
          ⟨fun _ => FsRead.ok "B", fun _ => Obs.file 1 1, true,
            Except.ok (), Except.error "boom", fun _ => FsRead.ok "B"⟩
          (initSyncManager "/s" "/t") "/s/a" Dir.sourceToTarget 50)
    ∧ Eff.logError "boom" ∈ (performSyncRun (fun s => s)
          ⟨fun _ => FsRead.ok "B", fun _ => Obs.file 1 1, true,
            Except.ok (), Except.error "boom", fun _ => FsRead.ok "B"⟩
          (initSyncManager "/s" "/t") "/s/a" Dir.sourceToTarget 50).2 :=
  ⟨(performSync_swallows_errors (fun s => s)
      ⟨fun _ => FsRead.ok "B", fun _ => Obs.file 1 1, true,
        Except.ok (), Except.error "boom", fun _ => FsRead.ok "B"⟩
      (initSyncManager "/s" "/t") "/s/a" Dir.sourceToTarget 50).1,
    (performSync_swallows_errors (fun s => s)
      ⟨fun _ => FsRead.ok "B", fun _ => Obs.file 1 1, true,
        Except.ok (), Except.error "boom", fun _ => FsRead.ok "B"⟩
      (initSyncManager "/s" "/t") "/s/a" Dir.sourceToTarget 50).2 "boom"
      (Option.mem_def.mpr rfl)⟩

/-- Probe oracle for the stability counterexample: the file is observed
empty on the first attempt's stat, then keeps growing until tick 9, and is
quiescent from tick 9 on. -/
def prC6 : ProbeOracle := fun t =>
  if t ≤ 1 then Obs.file 0 0
  else if t ≤ 4 then Obs.file 1 1
  else if t ≤ 8 then Obs.file 2 2
  else Obs.file 3 3

/-- Claim C6 counterexample: the first probe pair sees the file present with
size zero, yet the run with the default budget of 3 fails, while the same
oracle grants success to a full 3-attempt run started just past the
zero-size probe (ticks 2 onward).  Hence the zero-size probe did consume an
attempt: the `continue` sits in a `for` loop whose update still increments
the attempt counter. -/
theorem isFileStable_zero_size_budget_cex :
    prC6 0 = Obs.file 0 0 ∧ prC6 1 = Obs.file 0 0
    ∧ isFileStable prC6 3 = false
    ∧ isFileStableLoop prC6 3 2 = true := by decide

/-- Claim C6 (amended): on observing a present file whose stat reports size
zero, `isFileStable` waits 500ms and proceeds to the NEXT attempt — each
zero-size probe reduces the remaining attempt budget by one. -/
theorem isFileStable_zero_size_consumes_attempt (pr : ProbeOracle)
    (rem t szA mA mB : Nat) (h0 : pr t = Obs.file szA mA)
    (h1 : pr (t + 1) = Obs.file 0 mB) :
    isFileStableLoop pr (rem + 1) t = isFileStableLoop pr rem (t + 2) := by
  conv_lhs => rw [isFileStableLoop]
  simp [h0, h1]

/-- Claim C6 amended-theorem witness. -/
theorem isFileStable_zero_size_consumes_attempt_witness :
    prC6 0 = Obs.file 0 0 ∧ prC6 1 = Obs.file 0 0
    ∧ isFileStableLoop prC6 3 0 = isFileStableLoop prC6 2 2 :=
  ⟨rfl, rfl, isFileStable_zero_size_consumes_attempt prC6 2 0 0 0 0 rfl rfl⟩

/-- Claim C8 counterexample: after a single `lockFile` on a fresh manager,
`cleanup` still leaves the 10-second auto-release timer outstanding — the
`setTimeout` handles created by `lockFile` / `unlockFile` are stored
nowhere, so `cleanup` cannot cancel them. -/
theorem cleanup_leaves_auto_release_timer_cex :
    (cleanup (lockFile (initSyncManager "/s" "/t") "/s/a" 7)).timers
      = [⟨0, TimerKind.autoUnlock "/s/a", 10007⟩]
    ∧ (cleanup (lockFile (initSyncManager "/s" "/t") "/s/a" 7)).timers
      ≠ [] := by decide

/-- Claim C8 (amended): `cleanup` empties the pending-operation map, the
actively-syncing set and the recently-synced set, and cancels every timer
whose handle is held in `pendingOperations` (the debounce timers); the
untracked 10s auto-release and 5s recently-synced removal timers are not
cancelled. -/
theorem cleanup_clears_state_and_cancels_pending (st : SyncManager)
    (k : String) (tid : Nat) (hmem : (k, tid) ∈ st.pendingOperations) :
    (cleanup st).pendingOperations = []
    ∧ (cleanup st).syncingFiles = []
    ∧ (cleanup st).recentlySynced = []
    ∧ ∀ tm ∈ (cleanup st).timers, tm.id ≠ tid := by
  refine ⟨rfl, rfl, rfl, ?_⟩
  intro tm hm
  unfold cleanup at hm
  simp only [List.mem_filter] at hm
  rcases hm with ⟨hmem', hall⟩
  simp only [Bool.not_eq_true', List.any_eq_false, decide_eq_true_eq] at hall
  have hk := hall (k, tid) hmem
  exact fun hid => hk hid.symm

/-- Claim C8 amended-theorem witness. -/
theorem cleanup_clears_state_and_cancels_pending_witness :
    ("/s/a-source-to-target", 0)
        ∈ (scheduleSync (initSyncManager "/s" "/t") "/s/a"
            Dir.sourceToTarget 3).pendingOperations
    ∧ (cleanup (scheduleSync (initSyncManager "/s" "/t") "/s/a"
          Dir.sourceToTarget 3)).pendingOperations = []
    ∧ ∀ tm ∈ (cleanup (scheduleSync (initSyncManager "/s" "/t") "/s/a"
          Dir.sourceToTarget 3)).timers, tm.id ≠ 0 :=
  ⟨by decide,
    (cleanup_clears_state_and_cancels_pending _ "/s/a-source-to-target" 0
      (by decide)).1,
    (cleanup_clears_state_and_cancels_pending _ "/s/a-source-to-target" 0
      (by decide)).2.2.2⟩

/-- Initial state for the C1 race scenario: both trees hold content "A",
fingerprinted at time 100 (as hash initialization would leave them). -/
def c1St0 : SyncManager :=
  updateFileHash (fun s => s) (fun _ => FsRead.ok "A")
    (updateFileHash (fun s => s) (fun _ => FsRead.ok "A")
      (initSyncManager "/s" "/t") "/s/a" 100) "/t/a" 100

/-- Environment for the C1 race scenario: the source file reads "B" at the
change re-check and the copy succeeds, but by the post-copy re-check an
external writer has turned the source into "C" while the freshly written
target reads "B" — so the pair commit fails. -/
def c1EnvRace : SyncEnv :=
  ⟨fun _ => FsRead.ok "B", fun _ => Obs.file 1 1, true, Except.ok (),
   Except.ok (), fun q => if q = "/s/a" then FsRead.ok "C" else FsRead.ok "B"⟩

/-- Claim C1 counterexample: a source→target sync for `/s/a` at t=10000
copies to `/t/a`, but its pair re-check fails to commit (raced by an
external write to the source).  The watch event generated by the engine's
own write to `/t/a`, arriving 100ms later — well inside the recently-synced
window — passes all three gates and schedules a target→source sync: the
sync did trigger an opposite-direction sync for the pair. -/
theorem performSync_echo_can_schedule_opposite_cex :
    Eff.copyFile "/s/a" "/t/a"
        ∈ (performSyncRun (fun s => s) c1EnvRace c1St0 "/s/a"
            Dir.sourceToTarget 10000).2
    ∧ (10100 : Nat) - 10000 < 3000
    ∧ mapGet (handleFileChange (fun s => s) (fun _ => FsRead.ok "B")
          (performSyncRun (fun s => s) c1EnvRace c1St0 "/s/a"
            Dir.sourceToTarget 10000).1
          "/t/a" 10100).pendingOperations (syncKey "/t/a" Dir.targetToSource)
      = some 2 := by decide

/-- Claim C1 (amended): when the sync's post-copy pair re-check commits —
recording the last-synced timestamp for the counterpart path, which holds
whenever no external writer races the copy — the watch event generated by
the engine's own write to the counterpart is dropped by the event gates
inside the 3000ms recent-modification window: `handleFileChange` returns
the state unchanged, so no opposite-direction sync is scheduled. -/
theorem performSync_committed_echo_dropped (md5 : String → String)
    (env : SyncEnv) (fs2 : FS) (st : SyncManager) (p : FsPath) (d : Dir)
    (T now2 : Nat)
    (hcommit : mapGet (performSyncRun md5 env st p d T).1.lastSyncTime
        (getSyncPaths p d st).2 = some T)
    (hT : T ≠ 0) (hwin : now2 - T < 3000) :
    handleFileChange md5 fs2 (performSyncRun md5 env st p d T).1
        (getSyncPaths p d st).2 now2
      = (performSyncRun md5 env st p d T).1 := by
  unfold handleFileChange
  cases hl : isFileLocked (performSyncRun md5 env st p d T).1
      (getSyncPaths p d st).2 with
  | true => simp [hl]
  | false =>
    have hrm : wasRecentlyModified (performSyncRun md5 env st p d T).1
        (getSyncPaths p d st).2 3000 now2 = true := by
      unfold wasRecentlyModified
      rw [hcommit]
      simp [hT, hwin]
    simp [hl, hrm]

/-- Environment for the C1 committed scenario: no external interference, so
both sides read the copied content "B" at the pair re-check. -/
def c1EnvCommit : SyncEnv :=
  ⟨fun _ => FsRead.ok "B", fun _ => Obs.file 1 1, true, Except.ok (),
   Except.ok (), fun _ => FsRead.ok "B"⟩

/-- Claim C1 amended-theorem witness: a committed sync at t=5000 whose echo
event at t=6000 is dropped. -/
theorem performSync_committed_echo_dropped_witness :
    mapGet (performSyncRun (fun s => s) c1EnvCommit
        (initSyncManager "/s" "/t") "/s/a" Dir.sourceToTarget
        5000).1.lastSyncTime
        (getSyncPaths "/s/a" Dir.sourceToTarget
          (initSyncManager "/s" "/t")).2 = some 5000
    ∧ (5000 : Nat) ≠ 0 ∧ (6000 : Nat) - 5000 < 3000
    ∧ handleFileChange (fun s => s) (fun _ => FsRead.ok "B")
        (performSyncRun (fun s => s) c1EnvCommit
          (initSyncManager "/s" "/t") "/s/a" Dir.sourceToTarget 5000).1
        (getSyncPaths "/s/a" Dir.sourceToTarget
          (initSyncManager "/s" "/t")).2 6000
      = (performSyncRun (fun s => s) c1EnvCommit
          (initSyncManager "/s" "/t") "/s/a" Dir.sourceToTarget 5000).1 :=
  ⟨by decide, by decide, by decide,
    performSync_committed_echo_dropped (fun s => s) c1EnvCommit
      (fun _ => FsRead.ok "B") (initSyncManager "/s" "/t") "/s/a"
      Dir.sourceToTarget 5000 6000 (by decide) (by decide) (by decide)⟩

theorem runTimersLoop_of_none (fuel now : Nat) (st : SyncManager)
    (log : List Handoff) (h : pickDue now st.timers = none) :
    runTimersLoop fuel now st log = (st, log) := by
  cases fuel with
  | zero => rfl
  | succ f => simp [runTimersLoop, h]

/-- Shape of the manager in the middle of a single-key debounce burst: one
pending entry for the key and one outstanding debounce timer set at the
latest event time. -/
def midBurstState (src tgt p : String) (d : Dir) (idN tPrev : Nat) :
    SyncManager :=
  { sourcePath := src, targetPath := tgt, fileHashes := [], syncingFiles := [],
    pendingOperations := [(syncKey p d, idN)], lastSyncTime := [],
    recentlySynced := [],
    timers := [⟨idN, .debounce (syncKey p d) p d, tPrev + syncDelay d⟩],
    nextTimerId := idN + 1 }

/-- Shape of the manager after the burst's one timer has fired. -/
def drainedState (src tgt : String) (idN : Nat) : SyncManager :=
  { sourcePath := src, targetPath := tgt, fileHashes := [], syncingFiles := [],
    pendingOperations := [], lastSyncTime := [], recentlySynced := [],
    timers := [], nextTimerId := idN }

theorem pickDue_midBurst_not_due (src tgt p : String) (d : Dir)
    (idN tPrev now : Nat) (h : now < tPrev + syncDelay d) :
    pickDue now (midBurstState src tgt p d idN tPrev).timers = none := by
  simp [pickDue, midBurstState, Nat.not_le.mpr h]

theorem scheduleSync_midBurst (src tgt p : String) (d : Dir)
    (idN tPrev t : Nat) :
    scheduleSync (midBurstState src tgt p d idN tPrev) p d t
      = midBurstState src tgt p d (idN + 1) t := by
  simp [scheduleSync, midBurstState, mapGet, clearTimeoutId, allocTimer,
    mapSet]

theorem scheduleSync_init (src tgt p : String) (d : Dir) (t0 : Nat) :
    scheduleSync (initSyncManager src tgt) p d t0
      = midBurstState src tgt p d 0 t0 := by
  simp [scheduleSync, initSyncManager, midBurstState, mapGet, allocTimer,
    mapSet]

theorem runEvents_midBurst (src tgt p : String) (d : Dir) (ts : List Nat) :
    ∀ idN tPrev log, gapsOk d tPrev ts = true →
    runEvents (midBurstState src tgt p d idN tPrev) log
        (ts.map (fun t => (t, p, d)))
      = (midBurstState src tgt p d (idN + ts.length) (lastT tPrev ts), log) := by
  induction ts with
  | nil => intro idN tPrev log _; simp [runEvents, lastT]
  | cons t rest ih =>
    intro idN tPrev log h
    simp only [gapsOk, Bool.and_eq_true, decide_eq_true_eq] at h
    obtain ⟨⟨hle, hlt⟩, hrest⟩ := h
    simp only [List.map_cons, runEvents]
    rw [runTimersLoop_of_none _ _ _ _
      (pickDue_midBurst_not_due src tgt p d idN tPrev t hlt)]
    dsimp only
    rw [scheduleSync_midBurst, ih (idN + 1) t log hrest]
    have hlen : idN + 1 + rest.length = idN + (rest.length + 1) := by omega
    have hlast : lastT t rest = lastT tPrev (t :: rest) := rfl
    rw [hlen, hlast]
    rfl

theorem runTimersLoop_drain_midBurst (src tgt p : String) (d : Dir)
    (idN tLast T : Nat) (log : List Handoff)
    (hT : tLast + syncDelay d ≤ T) :
    runTimersLoop 2 T (midBurstState src tgt p d idN tLast) log
      = (drainedState src tgt (idN + 1),
         log ++ [(p, d, tLast + syncDelay d)]) := by
  simp [runTimersLoop, pickDue, midBurstState, hT, fireTimer, clearTimeoutId,
    mapDelete, drainedState]

/-- Claim C5: a burst of N ≥ 1 `scheduleSync` events for one
`(path, direction)` key, each arriving before the previous event's debounce
timer fires, cancels and replaces the pending timer each time and hands off
exactly one sync to the executor, timed from the last event plus the
direction's delay — 4000ms for target→source, 2000ms for source→target. -/
theorem scheduleSync_debounce_coalesces (src tgt p : String) (d : Dir)
    (t0 : Nat) (ts : List Nat) (T : Nat)
    (hgap : gapsOk d t0 ts = true)
    (hT : lastT t0 ts + syncDelay d ≤ T) :
    (runBurst (initSyncManager src tgt)
        ((t0, p, d) :: ts.map (fun t => (t, p, d))) T).2
      = [(p, d, lastT t0 ts + syncDelay d)]
    ∧ (runBurst (initSyncManager src tgt)
        ((t0, p, d) :: ts.map (fun t => (t, p, d))) T).1.pendingOperations = []
    ∧ syncDelay Dir.targetToSource = 4000
    ∧ syncDelay Dir.sourceToTarget = 2000 := by
  have h1 : runEvents (initSyncManager src tgt) []
      ((t0, p, d) :: ts.map (fun t => (t, p, d)))
      = (midBurstState src tgt p d (0 + ts.length) (lastT t0 ts), []) := by
    simp only [runEvents]
    rw [runTimersLoop_of_none _ _ _ _ (by simp [initSyncManager, pickDue])]
    dsimp only
    rw [scheduleSync_init]
    exact runEvents_midBurst src tgt p d ts 0 t0 [] hgap
  unfold runBurst
  rw [h1]
  dsimp only
  rw [show (midBurstState src tgt p d (0 + ts.length)
      (lastT t0 ts)).timers.length + 1 = 2 from rfl]
  rw [runTimersLoop_drain_midBurst src tgt p d _ _ T [] hT]
  exact ⟨rfl, rfl, rfl, rfl⟩

/-- Claim C5 witness: three source→target events at 100, 1100, 2100 within
the 2000ms delay produce exactly one handoff at 4100. -/
theorem scheduleSync_debounce_coalesces_witness :
    gapsOk Dir.sourceToTarget 100 [1100, 2100] = true
    ∧ lastT 100 [1100, 2100] + syncDelay Dir.sourceToTarget ≤ 99999
    ∧ (runBurst (initSyncManager "/s" "/t")
        ((100, "/s/a", Dir.sourceToTarget)
          :: [1100, 2100].map (fun t => (t, "/s/a", Dir.sourceToTarget)))
        99999).2
      = [("/s/a", Dir.sourceToTarget,
          lastT 100 [1100, 2100] + syncDelay Dir.sourceToTarget)] :=
  ⟨by decide, by decide,
    (scheduleSync_debounce_coalesces "/s" "/t" "/s/a" Dir.sourceToTarget
      100 [1100, 2100] 99999 (by decide) (by decide)).1⟩
